import Mathlib

/-!
Verification of the SLPC legal-assistant retrieval core

Shallow embedding of the repository's retrieval core:

* `src/slpc_pdf_extractor.py` — the Corpus Structurer
  (`parse_slpc_sections`, `save_to_json`);
* `src/slpc_vectordb_builder.py` — the Semantic Index builder
  (`load_slpc_data`, `prepare_documents`, `build_slpc_vectordb`);
* `src/tools/slpc_sections_search_tool.py` — the Retriever
  (`search_slpc_sections`).

Strings are modelled as `List Char`; Python's `str.split('\n')`,
`str.strip()` and the two `re.match` patterns of the extractor are
translated below.  The two regular expressions

* `chapter_pattern = (?:CHAPTER|Chapter)\s+([IVXLCDM]+|\d+)[:\s]*([^\n]+)`
* `section_pattern = (?:Section|§)\s*(\d+)[:\.\s]*([^\n]+)`

are both used with `re.match(..., re.IGNORECASE)` (match anchored at the
start of the line, leftmost match, greedy quantifiers with backtracking).
They are embedded as specialised backtracking matchers whose choice points
follow Python's engine exactly: each quantifier consumes greedily and
retreats one character at a time, alternatives are tried left to right.
The character classes `\s` and `\d` are modelled by their ASCII parts
(the corpus text is ASCII; Python additionally accepts some Unicode
whitespace/digit characters).
-/

/-- ASCII part of Python's regex class `\s` / of the characters removed by
`str.strip()`. -/
def isWS (c : Char) : Bool :=
  c = ' ' || c = '\t' || c = '\n' || c = '\r' || c = '\x0b' || c = '\x0c'

/-- The class `[IVXLCDM]` under `re.IGNORECASE` (upper- and lowercase roman
numeral letters). -/
def isRomanCI (c : Char) : Bool :=
  c = 'I' || c = 'V' || c = 'X' || c = 'L' || c = 'C' || c = 'D' || c = 'M' ||
  c = 'i' || c = 'v' || c = 'x' || c = 'l' || c = 'c' || c = 'd' || c = 'm'

/-- ASCII part of the regex class `\d`. -/
def isDigitCh (c : Char) : Bool := '0' ≤ c && c ≤ '9'

/-- The class `[:\s]` of `chapter_pattern`. -/
def isSepChap (c : Char) : Bool := c = ':' || isWS c

/-- The class `[:\.\s]` of `section_pattern`. -/
def isSepSec (c : Char) : Bool := c = ':' || c = '.' || isWS c

/-- Python's `str.strip()` (restricted to ASCII whitespace): remove leading
and trailing whitespace. -/
def pyStrip (l : List Char) : List Char :=
  ((l.dropWhile isWS).reverse.dropWhile isWS).reverse

/-- Python's `text.split('\n')`: split at every newline, keeping empty
pieces.  Never returns the empty list. -/
def splitNL : List Char → List (List Char)
  | [] => [[]]
  | c :: rest =>
    if c = '\n' then [] :: splitNL rest
    else
      match splitNL rest with
      | l :: ls => (c :: l) :: ls
      | [] => [[c]]

/-- Python's `int()` on a string of ASCII digits. -/
def natOfDigits (l : List Char) : Nat :=
  l.foldl (fun a c => a * 10 + (c.toNat - 48)) 0

/-- Case-insensitive literal prefix (Python `re` alternative such as
`CHAPTER|Chapter` under `re.IGNORECASE`); returns the rest of the input on
success. -/
def startsWithCI : List Char → List Char → Option (List Char)
  | [], rest => some rest
  | _ :: _, [] => none
  | p :: ps, c :: cs => if c.toLower = p.toLower then startsWithCI ps cs else none

/-- The regex tail `[:\s]*([^\n]+)` (resp. `[:\.\s]*([^\n]+)`), given the
separator class: the star consumes greedily and backtracks one character at
a time; the final group captures a maximal nonempty run of non-newline
characters.  Returns the captured group. -/
def sepG2 (isSep : Char → Bool) : List Char → Option (List Char)
  | [] => none
  | c :: rest =>
    if isSep c then
      match sepG2 isSep rest with
      | some g2 => some g2
      | none =>
        if c = '\n' then none
        else some ((c :: rest).takeWhile (fun x => x ≠ '\n'))
    else if c = '\n' then none
    else some ((c :: rest).takeWhile (fun x => x ≠ '\n'))

/-- A regex fragment `X+[sep]*([^\n]+)` where `X` is the character class
`isC`: the `+` consumes greedily and backtracks one character at a time
(exactly Python's order), then `sepG2` finishes the pattern.  Returns
(group of `X+`, final group). -/
def classPlusThen (isC : Char → Bool) (isSep : Char → Bool) :
    List Char → Option (List Char × List Char)
  | [] => none
  | c :: rest =>
    if isC c then
      match classPlusThen isC isSep rest with
      | some (g1, g2) => some (c :: g1, g2)
      | none =>
        match sepG2 isSep rest with
        | some g2 => some ([c], g2)
        | none => none
    else none

/-- The regex fragment `\s+` followed by a continuation: greedy with
single-character backtracking. -/
def spacePlusThen (k : List Char → Option (List Char × List Char)) :
    List Char → Option (List Char × List Char)
  | [] => none
  | c :: rest =>
    if isWS c then
      match spacePlusThen k rest with
      | some r => some r
      | none => k rest
    else none

/-- The regex fragment `\s*` followed by a continuation: greedy with
single-character backtracking. -/
def spaceStarThen (k : List Char → Option (List Char × List Char)) :
    List Char → Option (List Char × List Char)
  | [] => k []
  | c :: rest =>
    if isWS c then
      match spaceStarThen k rest with
      | some r => some r
      | none => k (c :: rest)
    else k (c :: rest)

/-- Embedding of `re.match(chapter_pattern, line, re.IGNORECASE)` with
`chapter_pattern = (?:CHAPTER|Chapter)\s+([IVXLCDM]+|\d+)[:\s]*([^\n]+)`.
Both literal alternatives are the same under `IGNORECASE`; the group
alternation tries the roman-numeral branch first.  Returns
(`group(1)`, `group(2)`) on success. -/
def chapterMatch (s : List Char) : Option (List Char × List Char) :=
  match startsWithCI "chapter".data s with
  | none => none
  | some rest =>
    spacePlusThen
      (fun u =>
        match classPlusThen isRomanCI isSepChap u with
        | some r => some r
        | none => classPlusThen isDigitCh isSepChap u)
      rest

/-- Embedding of `re.match(section_pattern, line, re.IGNORECASE)` with
`section_pattern = (?:Section|§)\s*(\d+)[:\.\s]*([^\n]+)`.  The literal
alternation tries `Section` first, then `§`.  Returns
(`group(1)`, `group(2)`) on success. -/
def sectionMatch (s : List Char) : Option (List Char × List Char) :=
  match (startsWithCI "section".data s).bind
      (spaceStarThen (classPlusThen isDigitCh isSepSec)) with
  | some r => some r
  | none =>
    match s with
    | '§' :: rest => spaceStarThen (classPlusThen isDigitCh isSepSec) rest
    | _ => none

/-- The Python value held by the scan's `current_chapter_num` variable and
stored in the `"chapter"` field: initialised to the integer `0`, replaced
by the matched numeral *string* on every chapter match. -/
inductive ChapVal where
  | int (n : Int)
  | str (s : String)
deriving DecidableEq, Repr

/-- One dictionary appended to `sections` by `parse_slpc_sections`: exactly
the keys `chapter, chapter_title, Section, section_title, section_desc`. -/
structure SectionRecord where
  chapter : ChapVal
  chapter_title : String
  Section : Nat
  section_title : String
  section_desc : String
deriving DecidableEq, Repr

/-- The inner body-collection loop of `parse_slpc_sections`
(lines 105–115 of `slpc_pdf_extractor.py`): starting at line index `j`,
accumulate stripped nonempty lines (each followed by a space) until a line
matching either heading pattern, or the end, is reached.  `fuel` bounds the
number of iterations (the loop itself is unbounded in Python); returns the
accumulated text and the final index. -/
def bodyLoop (lines : List (List Char)) :
    Nat → Nat → List Char → Option (List Char × Nat)
  | 0, j, section_desc =>
    if j < lines.length then none else some (section_desc, j)
  | fuel + 1, j, section_desc =>
    if h : j < lines.length then
      let next_line := pyStrip lines[j]
      if (chapterMatch next_line).isSome || (sectionMatch next_line).isSome then
        some (section_desc, j)
      else
        bodyLoop lines fuel (j + 1)
          (if next_line ≠ [] then section_desc ++ next_line ++ [' '] else section_desc)
    else some (section_desc, j)

/-- The outer `while i < len(lines)` scan of `parse_slpc_sections`
(lines 85–135 of `slpc_pdf_extractor.py`), with the loop index and the
mutable `current_chapter_num` / `current_chapter` / `sections` state made
explicit.  `fuel` bounds the number of iterations of the outer loop; the
inner loop is run with fuel `lines.length`, which always suffices. -/
def parseAux (lines : List (List Char)) :
    Nat → Nat → ChapVal → List Char → List SectionRecord → Option (List SectionRecord)
  | 0, i, _, _, sections =>
    if i < lines.length then none else some sections
  | fuel + 1, i, current_chapter_num, current_chapter, sections =>
    if h : i < lines.length then
      let line := pyStrip lines[i]
      match chapterMatch line with
      | some (g1, g2) =>
        parseAux lines fuel (i + 1) (ChapVal.str (String.mk g1)) (pyStrip g2) sections
      | none =>
        match sectionMatch line with
        | some (g1, g2) =>
          match bodyLoop lines lines.length (i + 1) [] with
          | none => none
          | some (raw_desc, j) =>
            let section_desc := pyStrip raw_desc
            let sections2 :=
              if section_desc ≠ [] then
                sections ++ [{ chapter := current_chapter_num
                               chapter_title := String.mk current_chapter
                               Section := natOfDigits g1
                               section_title := String.mk (pyStrip g2)
                               section_desc := String.mk section_desc }]
              else sections
            parseAux lines fuel j current_chapter_num current_chapter sections2
        | none => parseAux lines fuel (i + 1) current_chapter_num current_chapter sections
    else some sections

/-- Function `parse_slpc_sections` of `slpc_pdf_extractor.py`: split the text into
lines and run the scan with initial chapter context `0` / `"Unknown"`.
The outer loop advances the index by at least one per iteration, so fuel
`lines.length` always suffices (proved below); `getD` only discharges the
(unreachable) out-of-fuel case. -/
def parse_slpc_sections (text : String) : List SectionRecord :=
  let lines := splitNL text.data
  (parseAux lines lines.length 0 (ChapVal.int 0) "Unknown".data []).getD []

/-! ## Structural reformulation of the scan

`scanLines` re-expresses the nested `while` loops of `parse_slpc_sections`
as a single forward pass over the list of lines, threading the chapter
context and the (possibly open) section record being accumulated.  It is
proved equal to `parseAux` below and is only used as a proof vehicle. -/

/-- An open section record: the chapter context captured when its heading
was matched, the parsed section number and (stripped) title, and the body
text accumulated so far. -/
structure Pending where
  p_chapter : ChapVal
  p_chapter_title : List Char
  p_num : Nat
  p_title : List Char
  p_desc : List Char
deriving Repr

/-- Close an open record: strip the accumulated body and keep the record
only if the result is nonempty (lines 117–127 of the extractor). -/
def emitPending : Option Pending → List SectionRecord
  | none => []
  | some p =>
    let d := pyStrip p.p_desc
    if d ≠ [] then
      [{ chapter := p.p_chapter
         chapter_title := String.mk p.p_chapter_title
         Section := p.p_num
         section_title := String.mk p.p_title
         section_desc := String.mk d }]
    else []

/-- Single forward pass equivalent to the nested loops of
`parse_slpc_sections` (equivalence proved in `parseAux_eq_scanLines`). -/
def scanLines : List (List Char) → ChapVal → List Char → Option Pending → List SectionRecord
  | [], _, _, pending => emitPending pending
  | l :: ls, cn, ct, pending =>
    let s := pyStrip l
    match chapterMatch s with
    | some (g1, g2) =>
      emitPending pending ++ scanLines ls (ChapVal.str (String.mk g1)) (pyStrip g2) none
    | none =>
      match sectionMatch s with
      | some (g1, g2) =>
        emitPending pending ++
          scanLines ls cn ct (some ⟨cn, ct, natOfDigits g1, pyStrip g2, []⟩)
      | none =>
        match pending with
        | some p =>
          scanLines ls cn ct
            (some { p with p_desc := if s ≠ [] then p.p_desc ++ s ++ [' '] else p.p_desc })
        | none => scanLines ls cn ct none

/-! ## Well-formedness predicates for the universally quantified claims -/

/-- A line that terminates body accumulation: it matches either heading
pattern (the `break` condition of the inner loop). -/
def isHeadingLine (s : List Char) : Bool :=
  (chapterMatch s).isSome || (sectionMatch s).isSome

/-- A line opened as a section heading by the outer scan: the chapter
pattern fails and the section pattern matches. -/
def isSectionLine (s : List Char) : Bool :=
  !(chapterMatch s).isSome && (sectionMatch s).isSome

/-- The upcoming lines provide a well-formed body: before the next heading
line (exclusive) there is at least one line that is nonempty after
stripping. -/
def hasBody : List (List Char) → Bool
  | [] => false
  | l :: ls => !isHeadingLine (pyStrip l) && (pyStrip l ≠ [] || hasBody ls)

/-- Every section heading line of the text is followed by a well-formed
body (the hypothesis of the spec's "N well-formed headings" property). -/
def wfText : List (List Char) → Bool
  | [] => true
  | l :: ls => (!isSectionLine (pyStrip l) || hasBody ls) && wfText ls

/-- The section headings of a text, in document order: for each line on
which the outer scan opens a section, the parsed section number and
stripped title. -/
def secHeads : List (List Char) → List (Nat × String)
  | [] => []
  | l :: ls =>
    let s := pyStrip l
    if (chapterMatch s).isSome then secHeads ls
    else
      match sectionMatch s with
      | some (g1, g2) => (natOfDigits g1, String.mk (pyStrip g2)) :: secHeads ls
      | none => secHeads ls

/-! ## Semantic Index builder (`slpc_vectordb_builder.py`) -/

/-- A Python scalar stored in a document's metadata dictionary (the
`"chapter"` value is an `int` or a `str`, the rest are `int`/`str`). -/
inductive MetaVal where
  | mint (n : Int)
  | mstr (s : String)
deriving DecidableEq, Repr

/-- The metadata value of the record's `chapter` field. -/
def ChapVal.toMeta : ChapVal → MetaVal
  | .int n => .mint n
  | .str s => .mstr s

/-- A LangChain `Document`: display text plus a metadata dictionary. -/
structure Document where
  page_content : String
  metadata : List (String × MetaVal)
deriving DecidableEq, Repr

/-- Function `prepare_documents` of `slpc_vectordb_builder.py`: one document per
record, `page_content` built by the f-string
`f"Section {entry['Section']}: {entry['section_title']}\n\n{entry['section_desc']}"`,
metadata carrying the four hierarchy fields.  (The Python function reads
the JSON dictionaries written by the structurer; by the round-trip theorem
below these are exactly the section records.) -/
def prepare_documents (slpc_data : List SectionRecord) : List Document :=
  slpc_data.map fun entry =>
    { page_content :=
        "Section " ++ toString entry.Section ++ ": " ++ entry.section_title ++
          "\n\n" ++ entry.section_desc
      metadata :=
        [("chapter", entry.chapter.toMeta),
         ("chapter_title", MetaVal.mstr entry.chapter_title),
         ("section", MetaVal.mint (entry.Section : Int)),
         ("section_title", MetaVal.mstr entry.section_title)] }

/-! ## The intermediate JSON corpus file -/

/-- JSON values, as written by `json.dump` and read back by `json.load`. -/
inductive JVal where
  | jint (n : Int)
  | jstr (s : String)
  | jarr (xs : List JVal)
  | jobj (fields : List (String × JVal))

/-- JSON value of the record's `chapter` field (Python serialises the
`int` or `str` held by the dictionary). -/
def ChapVal.toJ : ChapVal → JVal
  | .int n => .jint n
  | .str s => .jstr s

/-- The five-field JSON object serialised for one record, keys in the
order the structurer inserts them. -/
def recordToJ (r : SectionRecord) : List (String × JVal) :=
  [("chapter", r.chapter.toJ),
   ("chapter_title", JVal.jstr r.chapter_title),
   ("Section", JVal.jint (r.Section : Int)),
   ("section_title", JVal.jstr r.section_title),
   ("section_desc", JVal.jstr r.section_desc)]

/-- Function `save_to_json` of `slpc_pdf_extractor.py`: the JSON document written to
the output file is the array of the records' five-field objects
(`json.dump(data, f)`; file I/O itself is outside the model). -/
def save_to_json (data : List SectionRecord) : JVal :=
  JVal.jarr (data.map fun r => JVal.jobj (recordToJ r))

/-- Read a JSON array element-wise as a list of dictionaries. -/
def jdictList : List JVal → Option (List (List (String × JVal)))
  | [] => some []
  | JVal.jobj fs :: rest => (jdictList rest).map (fs :: ·)
  | _ => none

/-- Function `load_slpc_data` of `slpc_vectordb_builder.py`: `json.load` on the
corpus file returns the parsed array as a Python list of dictionaries
(`none` models a file whose top level is not an array of objects, which
`save_to_json` never writes). -/
def load_slpc_data (j : JVal) : Option (List (List (String × JVal))) :=
  match j with
  | JVal.jarr xs => jdictList xs
  | _ => none

/-! ## Environment configuration (`build_slpc_vectordb`, `search_slpc_sections`) -/

/-- Python truthiness of an `os.getenv` result: `None` and the empty
string are falsy. -/
def pytruthy : Option String → Bool
  | none => false
  | some s => s ≠ ""

/-- The configuration phase of `build_slpc_vectordb` (lines 54–61 of
`slpc_vectordb_builder.py`): read the three environment variables and
raise `EnvironmentError` unless all are truthy; on success return the
triple used by the rest of the build. -/
def build_slpc_vectordb_config (env : String → Option String) :
    Except String (String × String × String) :=
  let slpc_json_path := env "SLPC_JSON_PATH"
  let persist_dir_path := env "PERSIST_DIRECTORY_PATH"
  let collection_name := env "SLPC_COLLECTION_NAME"
  if !(pytruthy slpc_json_path && pytruthy persist_dir_path && pytruthy collection_name) then
    Except.error "Missing one or more required environment variables."
  else
    Except.ok (slpc_json_path.getD "", persist_dir_path.getD "", collection_name.getD "")

/-- The configuration phase of `search_slpc_sections` (lines 26–43 of
`slpc_sections_search_tool.py`): only `PERSIST_DIRECTORY_PATH` is checked;
`SLPC_COLLECTION_NAME` is read without any check and passed on (possibly
`None`) to the `Chroma` constructor. -/
def search_slpc_sections_config (env : String → Option String) :
    Except String (String × Option String) :=
  let persist_dir_path := env "PERSIST_DIRECTORY_PATH"
  if !pytruthy persist_dir_path then
    Except.error "PERSIST_DIRECTORY_PATH is not set in .env"
  else
    Except.ok (persist_dir_path.getD "", env "SLPC_COLLECTION_NAME")

/-! ## The persisted Chroma store -/

/-- The persisted vector store: collections addressed by
(persist directory, collection name), each holding the documents added to
it.  Embedding vectors are not modelled; ranking is a parameter of the
query below. -/
structure ChromaStore where
  collections : List ((String × String) × List Document)
deriving Repr

/-- A store with no collections. -/
def ChromaStore.empty : ChromaStore := ⟨[]⟩

/-- The documents of collection `name` under `dir` (empty if absent). -/
def ChromaStore.getCollection (st : ChromaStore) (dir name : String) : List Document :=
  match st.collections.find? (fun e => e.1 == (dir, name)) with
  | some e => e.2
  | none => []

/-- Replace the contents recorded for `(dir, name)`. -/
def ChromaStore.setCollection (st : ChromaStore) (dir name : String)
    (docs : List Document) : ChromaStore :=
  ⟨((dir, name), docs) :: st.collections.filter (fun e => !(e.1 == (dir, name)))⟩

/-- The call `Chroma.from_documents(documents, embedding, persist_directory,
collection_name)` as called by `build_slpc_vectordb` (lines 69–74).
Modelled on the documented behaviour of the external `langchain_chroma` /
`chromadb` backend (not part of this repository): the call opens or
creates the named collection at the persist directory and adds the given
documents under freshly generated UUIDs; documents already persisted in
the collection are neither deleted nor overwritten, so a rebuild adds to
the prior contents. -/
def chroma_from_documents (st : ChromaStore) (documents : List Document)
    (dir name : String) : ChromaStore :=
  st.setCollection dir name (st.getCollection dir name ++ documents)

/-- The call `vector_db.similarity_search(query, k)` as called by
`search_slpc_sections` (line 46): the `k` best-ranked documents of the
persisted collection.  The embedding-induced ranking is abstracted as the
`rank` argument, a reordering of the stored documents; the search returns
its first `k` elements. -/
def chroma_similarity_search (st : ChromaStore) (dir name : String)
    (rank : List Document → List Document) (k : Nat) : List Document :=
  (rank (st.getCollection dir name)).take k

/-! ## Basic properties of `pyStrip` -/

/-- Unfolding: `pyStrip` is `rdropWhile` after `dropWhile`. -/
theorem pyStrip_eq_rdropWhile (l : List Char) :
    pyStrip l = List.rdropWhile isWS (l.dropWhile isWS) := rfl

/-- A string strips to the empty string exactly when it is all whitespace. -/
theorem pyStrip_eq_nil_iff {l : List Char} :
    pyStrip l = [] ↔ ∀ c ∈ l, isWS c = true := by
  rw [pyStrip_eq_rdropWhile, List.rdropWhile_eq_nil_iff]
  constructor
  · intro h c hc
    have hc2 : c ∈ l.takeWhile isWS ++ l.dropWhile isWS := by
      rw [List.takeWhile_append_dropWhile]; exact hc
    rcases List.mem_append.mp hc2 with h1 | h2
    · exact List.mem_takeWhile_imp h1
    · exact h c h2
  · intro h c hc
    exact h c ((List.dropWhile_suffix isWS).subset hc)

/-- Every character of the stripped string occurs in the original. -/
theorem pyStrip_subset {c : Char} {l : List Char} (h : c ∈ pyStrip l) : c ∈ l := by
  rw [pyStrip_eq_rdropWhile] at h
  exact (List.dropWhile_suffix isWS).subset ((List.rdropWhile_prefix isWS _).subset h)

/-- A nonempty stripped string contains a non-whitespace character. -/
theorem pyStrip_exists_not_ws {l : List Char} (h : pyStrip l ≠ []) :
    ∃ c ∈ pyStrip l, isWS c = false := by
  refine ⟨(pyStrip l).getLast h, List.getLast_mem h, ?_⟩
  have := List.rdropWhile_last_not isWS (l.dropWhile isWS)
      (by rw [← pyStrip_eq_rdropWhile]; exact h)
  simpa [pyStrip_eq_rdropWhile] using this

/-- A string containing a non-whitespace character strips to a nonempty
string. -/
theorem pyStrip_ne_nil_of_mem {c : Char} {l : List Char}
    (hc : c ∈ l) (hws : isWS c = false) : pyStrip l ≠ [] := by
  intro h
  rw [pyStrip_eq_nil_iff] at h
  rw [h c hc] at hws
  cases hws

/-- Appending to a string whose stripped form is nonempty keeps the
stripped form nonempty. -/
theorem pyStrip_append_left_ne {d : List Char} (h : pyStrip d ≠ []) (x : List Char) :
    pyStrip (d ++ x) ≠ [] := by
  obtain ⟨c, hc, hws⟩ := pyStrip_exists_not_ws h
  exact pyStrip_ne_nil_of_mem (List.mem_append_left x (pyStrip_subset hc)) hws

/-- Appending a nonempty stripped line (and a space) to the accumulated
body makes the stripped body nonempty. -/
theorem pyStrip_append_mid_ne {l : List Char} (h : pyStrip l ≠ []) (d : List Char) :
    pyStrip (d ++ pyStrip l ++ [' ']) ≠ [] := by
  obtain ⟨c, hc, hws⟩ := pyStrip_exists_not_ws h
  refine pyStrip_ne_nil_of_mem (c := c) ?_ hws
  exact List.mem_append_left [' '] (List.mem_append_right d hc)

/-- Making a string from a nonempty character list does not give the empty
string. -/
theorem String.mk_ne_empty {d : List Char} (h : d ≠ []) : String.mk d ≠ "" := by
  intro hs
  exact h (congrArg String.data hs)

/-! ## The nested loops are equivalent to the single forward pass -/

/-- The inner body loop agrees with `scanLines` run in collecting state:
with enough fuel it returns the extended body and the boundary index, and
continuing the single pass from the boundary with the closed record emitted
gives the same records. -/
theorem bodyLoop_scan_spec (lines : List (List Char)) :
    ∀ (fuel j : Nat) (d : List Char), lines.length ≤ j + fuel →
    ∃ d2 jf, bodyLoop lines fuel j d = some (d2, jf) ∧ j ≤ jf ∧
      ∀ (cn pc : ChapVal) (ct pct pt : List Char) (pn : Nat),
        scanLines (lines.drop j) cn ct (some ⟨pc, pct, pn, pt, d⟩) =
          emitPending (some ⟨pc, pct, pn, pt, d2⟩) ++ scanLines (lines.drop jf) cn ct none := by
  intro fuel
  induction fuel with
  | zero =>
    intro j d hle
    have hnl : ¬ j < lines.length := by omega
    have hdrop : lines.drop j = [] := List.drop_eq_nil_of_le (by omega)
    refine ⟨d, j, by simp [bodyLoop, hnl], Nat.le_refl j, ?_⟩
    intro cn pc ct pct pt pn
    simp [hdrop, scanLines, emitPending]
  | succ fuel ih =>
    intro j d hle
    by_cases h : j < lines.length
    · have hdrop : lines.drop j = lines[j] :: lines.drop (j + 1) :=
        List.drop_eq_getElem_cons h
      rcases hch : chapterMatch (pyStrip lines[j]) with _ | ⟨g1, g2⟩
      · rcases hsec : sectionMatch (pyStrip lines[j]) with _ | ⟨g1, g2⟩
        · -- body line: the loop extends the accumulator and recurses
          obtain ⟨d2, jf, heq, hj1, hscan⟩ :=
            ih (j + 1)
              (if pyStrip lines[j] ≠ [] then d ++ pyStrip lines[j] ++ [' '] else d)
              (by omega)
          refine ⟨d2, jf, ?_, by omega, ?_⟩
          · simpa [bodyLoop, h, hch, hsec] using heq
          · intro cn pc ct pct pt pn
            conv_lhs => rw [hdrop]
            simp only [scanLines, hch, hsec]
            simpa using hscan cn pc ct pct pt pn
        · -- section heading terminates the body
          refine ⟨d, j, by simp [bodyLoop, h, hch, hsec], Nat.le_refl j, ?_⟩
          intro cn pc ct pct pt pn
          conv_lhs => rw [hdrop]
          conv_rhs => rw [hdrop]
          simp [scanLines, hch, hsec, emitPending]
      · -- chapter heading terminates the body
        refine ⟨d, j, by simp [bodyLoop, h, hch], Nat.le_refl j, ?_⟩
        intro cn pc ct pct pt pn
        conv_lhs => rw [hdrop]
        conv_rhs => rw [hdrop]
        simp [scanLines, hch, emitPending]
    · have hdrop : lines.drop j = [] := List.drop_eq_nil_of_le (by omega)
      refine ⟨d, j, by simp [bodyLoop, h], Nat.le_refl j, ?_⟩
      intro cn pc ct pct pt pn
      simp [hdrop, scanLines, emitPending]

/-- The outer scan agrees with the single forward pass: with enough fuel it
returns the accumulated records followed by the records of the remaining
lines. -/
theorem parseAux_eq_scanLines (lines : List (List Char)) :
    ∀ (fuel i : Nat) (cn : ChapVal) (ct : List Char) (acc : List SectionRecord),
      lines.length ≤ i + fuel →
      parseAux lines fuel i cn ct acc = some (acc ++ scanLines (lines.drop i) cn ct none) := by
  intro fuel
  induction fuel with
  | zero =>
    intro i cn ct acc hle
    have hnl : ¬ i < lines.length := by omega
    have hdrop : lines.drop i = [] := List.drop_eq_nil_of_le (by omega)
    simp [parseAux, hnl, hdrop, scanLines, emitPending]
  | succ fuel ih =>
    intro i cn ct acc hle
    by_cases h : i < lines.length
    · have hdrop : lines.drop i = lines[i] :: lines.drop (i + 1) :=
        List.drop_eq_getElem_cons h
      rcases hch : chapterMatch (pyStrip lines[i]) with _ | ⟨g1, g2⟩
      · rcases hsec : sectionMatch (pyStrip lines[i]) with _ | ⟨g1, g2⟩
        · -- plain line: skipped by both
          rw [show parseAux lines (fuel + 1) i cn ct acc =
                parseAux lines fuel (i + 1) cn ct acc by
              simp [parseAux, h, hch, hsec]]
          rw [ih (i + 1) cn ct acc (by omega)]
          conv_rhs => rw [hdrop]
          simp [scanLines, hch, hsec]
        · -- section heading: run the body loop, append the record if nonempty
          obtain ⟨d2, jf, heq, hj1, hscan⟩ :=
            bodyLoop_scan_spec lines lines.length (i + 1) [] (by omega)
          rw [show parseAux lines (fuel + 1) i cn ct acc =
                parseAux lines fuel jf cn ct
                  (if pyStrip d2 ≠ [] then
                    acc ++ [{ chapter := cn
                              chapter_title := String.mk ct
                              Section := natOfDigits g1
                              section_title := String.mk (pyStrip g2)
                              section_desc := String.mk (pyStrip d2) }]
                   else acc) by
              simp [parseAux, h, hch, hsec, heq]]
          rw [ih jf cn ct _ (by omega)]
          conv_rhs => rw [hdrop]
          simp only [scanLines, hch, hsec]
          rw [hscan cn cn ct ct (pyStrip g2) (natOfDigits g1)]
          by_cases hd : pyStrip d2 = [] <;>
            simp [emitPending, hd, List.append_assoc]
      · -- chapter heading: update the chapter context
        rw [show parseAux lines (fuel + 1) i cn ct acc =
              parseAux lines fuel (i + 1) (ChapVal.str (String.mk g1)) (pyStrip g2) acc by
            simp [parseAux, h, hch]]
        rw [ih (i + 1) _ _ acc (by omega)]
        conv_rhs => rw [hdrop]
        simp [scanLines, hch, emitPending]
    · have hdrop : lines.drop i = [] := List.drop_eq_nil_of_le (by omega)
      simp [parseAux, h, hdrop, scanLines, emitPending]

/-- Function `parse_slpc_sections` computes the single forward pass from the initial
chapter context `0` / `"Unknown"`. -/
theorem parse_slpc_sections_eq_scanLines (text : String) :
    parse_slpc_sections text =
      scanLines (splitNL text.data) (ChapVal.int 0) "Unknown".data none := by
  have heq := parseAux_eq_scanLines (splitNL text.data) (splitNL text.data).length 0
      (ChapVal.int 0) "Unknown".data [] (by omega)
  simp [parse_slpc_sections, heq]

/-! ## Invariants of the single forward pass -/

/-- A record produced by closing an open record has a nonempty body. -/
theorem emitPending_desc_ne_nil {pnd : Option Pending} {r : SectionRecord}
    (hr : r ∈ emitPending pnd) : r.section_desc ≠ "" := by
  rcases pnd with _ | p
  · simp [emitPending] at hr
  · by_cases hd : pyStrip p.p_desc = []
    · simp [emitPending, hd] at hr
    · simp [emitPending, hd] at hr
      rw [hr]
      exact String.mk_ne_empty hd

/-- Every record produced by the forward pass has a nonempty body. -/
theorem scanLines_desc_ne_nil :
    ∀ (lines : List (List Char)) (cn : ChapVal) (ct : List Char) (pnd : Option Pending)
      (r : SectionRecord), r ∈ scanLines lines cn ct pnd → r.section_desc ≠ "" := by
  intro lines
  induction lines with
  | nil =>
    intro cn ct pnd r hr
    exact emitPending_desc_ne_nil hr
  | cons l ls ih =>
    intro cn ct pnd r hr
    rcases hch : chapterMatch (pyStrip l) with _ | ⟨g1, g2⟩
    · rcases hsec : sectionMatch (pyStrip l) with _ | ⟨g1, g2⟩
      · rcases pnd with _ | p
        · simp only [scanLines, hch, hsec] at hr
          exact ih cn ct none r hr
        · simp only [scanLines, hch, hsec] at hr
          exact ih cn ct _ r hr
      · simp only [scanLines, hch, hsec] at hr
        rcases List.mem_append.mp hr with h1 | h2
        · exact emitPending_desc_ne_nil h1
        · exact ih cn ct _ r h2
    · simp only [scanLines, hch] at hr
      rcases List.mem_append.mp hr with h1 | h2
      · exact emitPending_desc_ne_nil h1
      · exact ih _ _ none r h2

/-- Decomposition of the forward pass over a chapter-free prefix: as long
as no line of `pre` matches the chapter pattern, the chapter context
stays as it was on entry, so the scan of `pre ++ post` consists of
records carrying the incoming context followed by the scan of `post`
from the same context, with a possibly still-open record that also
captured the incoming context. -/
theorem scanLines_chapterless_prefix :
    ∀ pre : List (List Char), (∀ l ∈ pre, chapterMatch (pyStrip l) = none) →
    ∀ (post : List (List Char)) (cn : ChapVal) (ct : List Char) (pnd : Option Pending),
      (∀ p, pnd = some p → p.p_chapter = cn ∧ p.p_chapter_title = ct) →
      ∃ (A : List SectionRecord) (pnd2 : Option Pending),
        scanLines (pre ++ post) cn ct pnd = A ++ scanLines post cn ct pnd2 ∧
        (∀ r ∈ A, r.chapter = cn ∧ r.chapter_title = String.mk ct) ∧
        (∀ p, pnd2 = some p → p.p_chapter = cn ∧ p.p_chapter_title = ct) := by
  intro pre
  induction pre with
  | nil =>
    intro _ post cn ct pnd hpnd
    exact ⟨[], pnd, rfl, by simp, hpnd⟩
  | cons l ls ih =>
    intro hnoc post cn ct pnd hpnd
    have hch : chapterMatch (pyStrip l) = none := hnoc l (List.mem_cons_self l ls)
    have hnoc' : ∀ x ∈ ls, chapterMatch (pyStrip x) = none :=
      fun x hx => hnoc x (List.mem_cons_of_mem l hx)
    have hemit : ∀ r ∈ emitPending pnd, r.chapter = cn ∧ r.chapter_title = String.mk ct := by
      intro r hr
      rcases pnd with _ | p
      · simp [emitPending] at hr
      · obtain ⟨h1, h2⟩ := hpnd p rfl
        by_cases hd : pyStrip p.p_desc = []
        · simp [emitPending, hd] at hr
        · simp [emitPending, hd] at hr
          rw [hr]
          exact ⟨h1, by rw [h2]⟩
    rcases hsec : sectionMatch (pyStrip l) with _ | ⟨g1, g2⟩
    · -- body (or blank) line: the pending record, if any, only grows
      rcases pnd with _ | p
      · obtain ⟨A, pnd2, heq, hA, hp2⟩ := ih hnoc' post cn ct none (by simp)
        refine ⟨A, pnd2, ?_, hA, hp2⟩
        simpa only [List.cons_append, scanLines, hch, hsec] using heq
      · obtain ⟨hc1, hc2⟩ := hpnd p rfl
        obtain ⟨A, pnd2, heq, hA, hp2⟩ := ih hnoc' post cn ct
          (some { p with
            p_desc := if pyStrip l ≠ [] then p.p_desc ++ pyStrip l ++ [' ']
                      else p.p_desc })
          (by
            intro q hq
            injection hq with hq
            subst hq
            exact ⟨hc1, hc2⟩)
        refine ⟨A, pnd2, ?_, hA, hp2⟩
        simpa only [List.cons_append, scanLines, hch, hsec] using heq
    · -- section heading: close the pending record, open a new one that
      -- captures the (unchanged) incoming context
      obtain ⟨A, pnd2, heq, hA, hp2⟩ := ih hnoc' post cn ct
        (some ⟨cn, ct, natOfDigits g1, pyStrip g2, []⟩)
        (by
          intro q hq
          injection hq with hq
          subst hq
          exact ⟨rfl, rfl⟩)
      refine ⟨emitPending pnd ++ A, pnd2, ?_, ?_, hp2⟩
      · simp only [List.cons_append, scanLines, hch, hsec, List.append_eq]
        rw [heq, List.append_assoc]
      · intro r hr
        rcases List.mem_append.mp hr with h1 | h2
        · exact hemit r h1
        · exact hA r h2

/-- Joint induction for the heading-count property: when every section
heading of the remaining lines is followed by a well-formed body, the
forward pass emits exactly one record per section heading, in order
(projected to section number and title); in collecting state the pending
record is emitted first, provided its body is or will become nonempty. -/
theorem scanLines_secHeads :
    ∀ lines : List (List Char),
      (∀ (cn : ChapVal) (ct : List Char), wfText lines = true →
        (scanLines lines cn ct none).map (fun r => (r.Section, r.section_title)) =
          secHeads lines) ∧
      (∀ (cn : ChapVal) (ct : List Char) (p : Pending), wfText lines = true →
        (hasBody lines = true ∨ pyStrip p.p_desc ≠ []) →
        (scanLines lines cn ct (some p)).map (fun r => (r.Section, r.section_title)) =
          (p.p_num, String.mk p.p_title) :: secHeads lines) := by
  intro lines
  induction lines with
  | nil =>
    constructor
    · intro cn ct _
      simp [scanLines, emitPending, secHeads]
    · intro cn ct p _ hbody
      have hd : pyStrip p.p_desc ≠ [] := by
        rcases hbody with hb | hd
        · simp [hasBody] at hb
        · exact hd
      simp [scanLines, emitPending, hd, secHeads]
  | cons l ls ih =>
    rcases hch : chapterMatch (pyStrip l) with _ | ⟨g1, g2⟩
    · rcases hsec : sectionMatch (pyStrip l) with _ | ⟨g1, g2⟩
      · -- body line
        have hhead : isHeadingLine (pyStrip l) = false := by
          simp [isHeadingLine, hch, hsec]
        constructor
        · intro cn ct hwf
          have hwf' : wfText ls = true := by
            simp [wfText] at hwf
            exact hwf.2
          simp only [scanLines, hch, hsec]
          rw [ih.1 cn ct hwf']
          simp [secHeads, hch, hsec]
        · intro cn ct p hwf hbody
          have hwf' : wfText ls = true := by
            simp [wfText] at hwf
            exact hwf.2
          simp only [scanLines, hch, hsec]
          by_cases hs : pyStrip l = []
          · have hbody' : hasBody ls = true ∨ pyStrip p.p_desc ≠ [] := by
              rcases hbody with hb | hd
              · left
                simp [hasBody, hs] at hb
                exact hb.2
              · right
                exact hd
            rw [ih.2 cn ct _ hwf' (by simpa [hs] using hbody')]
            simp [secHeads, hch, hsec]
          · have hbody' : hasBody ls = true ∨
                pyStrip (p.p_desc ++ pyStrip l ++ [' ']) ≠ [] :=
              Or.inr (pyStrip_append_mid_ne hs p.p_desc)
            rw [ih.2 cn ct _ hwf' (by simpa [hs] using hbody')]
            simp [secHeads, hch, hsec]
      · -- section heading line
        have hsecline : isSectionLine (pyStrip l) = true := by
          simp [isSectionLine, hch, hsec]
        constructor
        · intro cn ct hwf
          have hwf' : wfText ls = true := by
            simp [wfText] at hwf
            exact hwf.2
          have hbls : hasBody ls = true := by
            simp [wfText, hsecline] at hwf
            exact hwf.1
          simp only [scanLines, hch, hsec, emitPending, List.nil_append]
          rw [ih.2 cn ct _ hwf' (Or.inl hbls)]
          simp [secHeads, hch, hsec]
        · intro cn ct p hwf hbody
          have hwf' : wfText ls = true := by
            simp [wfText] at hwf
            exact hwf.2
          have hbls : hasBody ls = true := by
            simp [wfText, hsecline] at hwf
            exact hwf.1
          have hd : pyStrip p.p_desc ≠ [] := by
            rcases hbody with hb | hd
            · simp [hasBody, isHeadingLine, hch, hsec] at hb
            · exact hd
          simp only [scanLines, hch, hsec]
          rw [List.map_append, ih.2 cn ct _ hwf' (Or.inl hbls)]
          simp [secHeads, hch, hsec, emitPending, hd]
    · -- chapter heading line
      constructor
      · intro cn ct hwf
        have hwf' : wfText ls = true := by
          simp [wfText] at hwf
          exact hwf.2
        simp only [scanLines, hch, emitPending, List.nil_append]
        rw [ih.1 _ _ hwf']
        simp [secHeads, hch]
      · intro cn ct p hwf hbody
        have hwf' : wfText ls = true := by
          simp [wfText] at hwf
          exact hwf.2
        have hd : pyStrip p.p_desc ≠ [] := by
          rcases hbody with hb | hd
          · simp [hasBody, isHeadingLine, hch] at hb
          · exact hd
        simp only [scanLines, hch]
        rw [List.map_append, ih.1 _ _ hwf']
        simp [secHeads, hch, emitPending, hd]

/-! ## Characterisation of the chapter matcher on well-shaped heading lines -/

/-- Roman-numeral letters are not whitespace. -/
theorem isRomanCI_not_ws {c : Char} (h : isRomanCI c = true) : isWS c = false := by
  simp only [isRomanCI, Bool.or_eq_true, decide_eq_true_eq] at h
  rcases h with ((((((((((((h|h)|h)|h)|h)|h)|h)|h)|h)|h)|h)|h)|h)|h <;> subst h <;> rfl

/-- Roman-numeral letters are not in the separator class `[:\s]`. -/
theorem isRomanCI_not_sep {c : Char} (h : isRomanCI c = true) : isSepChap c = false := by
  simp only [isRomanCI, Bool.or_eq_true, decide_eq_true_eq] at h
  rcases h with ((((((((((((h|h)|h)|h)|h)|h)|h)|h)|h)|h)|h)|h)|h)|h <;> subst h <;> rfl

/-- Roman-numeral letters are not the newline character. -/
theorem isRomanCI_ne_nl {c : Char} (h : isRomanCI c = true) : c ≠ '\n' := by
  intro hc
  subst hc
  simp [isRomanCI] at h

/-- Roman-numeral letters are not digits. -/
theorem isRomanCI_not_digit {c : Char} (h : isRomanCI c = true) : isDigitCh c = false := by
  simp only [isRomanCI, Bool.or_eq_true, decide_eq_true_eq] at h
  rcases h with ((((((((((((h|h)|h)|h)|h)|h)|h)|h)|h)|h)|h)|h)|h)|h <;> subst h <;> rfl

/-- Digits are not roman-numeral letters. -/
theorem isDigitCh_not_roman {c : Char} (h : isDigitCh c = true) : isRomanCI c = false := by
  cases hr : isRomanCI c
  · rfl
  · rw [isRomanCI_not_digit hr] at h
    cases h

/-- Whitespace characters are not digits. -/
theorem isWS_not_digit {c : Char} (h : isWS c = true) : isDigitCh c = false := by
  simp only [isWS, Bool.or_eq_true, decide_eq_true_eq] at h
  rcases h with ((((h|h)|h)|h)|h)|h <;> subst h <;> rfl

/-- Digits are not whitespace. -/
theorem isDigitCh_not_ws {c : Char} (h : isDigitCh c = true) : isWS c = false := by
  cases hw : isWS c
  · rfl
  · rw [isWS_not_digit hw] at h
    cases h

/-- If the first character does not belong to the class, the `X+`
fragment fails. -/
theorem classPlusThen_head_not (isC isSep : Char → Bool) :
    ∀ w : List Char, (∀ c0, w.head? = some c0 → isC c0 = false) →
      classPlusThen isC isSep w = none := by
  intro w hw
  cases w with
  | nil => rfl
  | cons c rest =>
    have := hw c rfl
    simp [classPlusThen, this]

/-- Fragment `\s+` followed by a continuation, applied to a single space and a
rest that does not start with whitespace, runs the continuation on the
rest. -/
theorem spacePlusThen_single (k : List Char → Option (List Char × List Char)) :
    ∀ (w : List Char), (∀ c0, w.head? = some c0 → isWS c0 = false) →
      spacePlusThen k (' ' :: w) = k w := by
  intro w hw
  have hsp : isWS ' ' = true := rfl
  cases w with
  | nil => simp [spacePlusThen, hsp]
  | cons c rest =>
    have hc := hw c rfl
    simp [spacePlusThen, hsp, hc]

/-- Fragment `[:\s]*([^\n]+)` applied to a space followed by a title whose first
character is outside the separator class and which contains no newline
captures exactly the title. -/
theorem sepG2_space_title :
    ∀ title : List Char, (∀ c0, title.head? = some c0 → isSepChap c0 = false) →
      (∀ c ∈ title, c ≠ '\n') → title ≠ [] →
      sepG2 isSepChap (' ' :: title) = some title := by
  intro title hhead hnl hne
  cases title with
  | nil => cases hne rfl
  | cons c rest =>
    have hsepc : isSepChap c = false := hhead c rfl
    have hnlc : ¬ c = '\n' := hnl c (List.mem_cons_self c rest)
    have htw : List.takeWhile (fun x => !decide (x = '\n')) rest = rest := by
      rw [List.takeWhile_eq_self_iff]
      intro a ha
      simpa using hnl a (List.mem_cons_of_mem c ha)
    simp [sepG2, hsepc, hnlc, show isSepChap ' ' = true from rfl, htw]

/-- Extending a successful `X+` capture by one more class character on the
left. -/
theorem classPlusThen_cons_of_some (isC isSep : Char → Bool) {w : List Char}
    {a : Char} {g1 g2 : List Char} (ha : isC a = true)
    (hw : classPlusThen isC isSep w = some (g1, g2)) :
    classPlusThen isC isSep (a :: w) = some (a :: g1, g2) := by
  simp [classPlusThen, ha, hw]

/-- Fragment `X+[sep]*([^\n]+)` on a full class run followed by a rest that does
not start in the class: the run is captured whole and the rest is handed
to the separator/group tail. -/
theorem classPlusThen_full (isC isSep : Char → Bool) :
    ∀ (num rest g2 : List Char), num ≠ [] → (∀ c ∈ num, isC c = true) →
      (∀ c0, rest.head? = some c0 → isC c0 = false) →
      sepG2 isSep rest = some g2 →
      classPlusThen isC isSep (num ++ rest) = some (num, g2) := by
  intro num
  induction num with
  | nil => intro rest g2 h; cases h rfl
  | cons a num' ih =>
    intro rest g2 _ hall hrest hsep
    have ha : isC a = true := hall a (List.mem_cons_self a num')
    cases num' with
    | nil =>
      simp [classPlusThen, ha, classPlusThen_head_not isC isSep rest hrest, hsep]
    | cons b num'' =>
      have hih := ih rest g2 (by simp)
        (fun c hc => hall c (List.mem_cons_of_mem a hc)) hrest hsep
      exact classPlusThen_cons_of_some isC isSep ha hih

/-- Fragment `X+[sep]*([^\n]+)` on a bare class run of length at least two: the
last character of the run is split off as the captured group. -/
theorem classPlusThen_split (isC isSep : Char → Bool) :
    ∀ (num : List Char) (c : Char), num ≠ [] → (∀ x ∈ num, isC x = true) →
      isC c = true → isSep c = false → c ≠ '\n' →
      classPlusThen isC isSep (num ++ [c]) = some (num, [c]) := by
  intro num
  induction num with
  | nil => intro c h; cases h rfl
  | cons a num' ih =>
    intro c _ hall hc hcsep hcnl
    have ha : isC a = true := hall a (List.mem_cons_self a num')
    cases num' with
    | nil =>
      simp [classPlusThen, ha, hc, sepG2, hcsep, hcnl]
    | cons b num'' =>
      have hih := ih c (by simp)
        (fun x hx => hall x (List.mem_cons_of_mem a hx)) hc hcsep hcnl
      exact classPlusThen_cons_of_some isC isSep ha hih

/-- A chapter-label line with a roman numeral, a space and a title whose
first character is outside `[:\s]` and which contains no newline: the
whole numeral is group 1 and the title is group 2. -/
theorem chapterMatch_roman_title :
    ∀ (num title : List Char), num ≠ [] → (∀ c ∈ num, isRomanCI c = true) →
      (∀ c0, title.head? = some c0 → isSepChap c0 = false) →
      (∀ c ∈ title, c ≠ '\n') → title ≠ [] →
      chapterMatch ("CHAPTER ".data ++ (num ++ ' ' :: title)) = some (num, title) := by
  intro num title hne hall hth hnl htne
  cases num with
  | nil => cases hne rfl
  | cons a num' =>
    have ha : isRomanCI a = true := hall a (List.mem_cons_self a num')
    have hg2 : sepG2 isSepChap (' ' :: title) = some title :=
      sepG2_space_title title hth hnl htne
    have hfull : classPlusThen isRomanCI isSepChap ((a :: num') ++ ' ' :: title) =
        some (a :: num', title) :=
      classPlusThen_full _ _ (a :: num') (' ' :: title) title (by simp) hall
        (fun c0 h0 => by injection h0 with h0; subst h0; rfl) hg2
    have hpre : startsWithCI "chapter".data
        ("CHAPTER ".data ++ ((a :: num') ++ ' ' :: title)) =
          some (' ' :: ((a :: num') ++ ' ' :: title)) := rfl
    have hsp := spacePlusThen_single
      (fun u =>
        match classPlusThen isRomanCI isSepChap u with
        | some r => some r
        | none => classPlusThen isDigitCh isSepChap u)
      ((a :: num') ++ ' ' :: title)
      (fun c0 h0 => by injection h0 with h0; subst h0; exact isRomanCI_not_ws ha)
    simp only [chapterMatch, hpre, hsp]
    rw [hfull]

/-- A chapter-label line with an arabic numeral, a space and a title whose
first character is outside `[:\s]` and which contains no newline: the
whole numeral is group 1 and the title is group 2. -/
theorem chapterMatch_digit_title :
    ∀ (num title : List Char), num ≠ [] → (∀ c ∈ num, isDigitCh c = true) →
      (∀ c0, title.head? = some c0 → isSepChap c0 = false) →
      (∀ c ∈ title, c ≠ '\n') → title ≠ [] →
      chapterMatch ("CHAPTER ".data ++ (num ++ ' ' :: title)) = some (num, title) := by
  intro num title hne hall hth hnl htne
  cases num with
  | nil => cases hne rfl
  | cons a num' =>
    have ha : isDigitCh a = true := hall a (List.mem_cons_self a num')
    have hg2 : sepG2 isSepChap (' ' :: title) = some title :=
      sepG2_space_title title hth hnl htne
    have hroman : classPlusThen isRomanCI isSepChap ((a :: num') ++ ' ' :: title) = none :=
      classPlusThen_head_not _ _ _
        (fun c0 h0 => by injection h0 with h0; subst h0; exact isDigitCh_not_roman ha)
    have hfull : classPlusThen isDigitCh isSepChap ((a :: num') ++ ' ' :: title) =
        some (a :: num', title) :=
      classPlusThen_full _ _ (a :: num') (' ' :: title) title (by simp) hall
        (fun c0 h0 => by injection h0 with h0; subst h0; rfl) hg2
    have hpre : startsWithCI "chapter".data
        ("CHAPTER ".data ++ ((a :: num') ++ ' ' :: title)) =
          some (' ' :: ((a :: num') ++ ' ' :: title)) := rfl
    have hsp := spacePlusThen_single
      (fun u =>
        match classPlusThen isRomanCI isSepChap u with
        | some r => some r
        | none => classPlusThen isDigitCh isSepChap u)
      ((a :: num') ++ ' ' :: title)
      (fun c0 h0 => by injection h0 with h0; subst h0; exact isDigitCh_not_ws ha)
    simp only [chapterMatch, hpre, hsp]
    rw [hroman, hfull]

/-- A bare chapter-label line whose roman numeral has at least two
letters: backtracking splits the numeral, capturing all but its last
letter as group 1 and the last letter as group 2. -/
theorem chapterMatch_roman_bare :
    ∀ (num : List Char) (c : Char), num ≠ [] → (∀ x ∈ num, isRomanCI x = true) →
      isRomanCI c = true →
      chapterMatch ("CHAPTER ".data ++ (num ++ [c])) = some (num, [c]) := by
  intro num c hne hall hc
  cases num with
  | nil => cases hne rfl
  | cons a num' =>
    have ha : isRomanCI a = true := hall a (List.mem_cons_self a num')
    have hsplit : classPlusThen isRomanCI isSepChap ((a :: num') ++ [c]) =
        some (a :: num', [c]) :=
      classPlusThen_split _ _ (a :: num') c (by simp) hall hc
        (isRomanCI_not_sep hc) (isRomanCI_ne_nl hc)
    have hpre : startsWithCI "chapter".data ("CHAPTER ".data ++ ((a :: num') ++ [c])) =
        some (' ' :: ((a :: num') ++ [c])) := rfl
    have hsp := spacePlusThen_single
      (fun u =>
        match classPlusThen isRomanCI isSepChap u with
        | some r => some r
        | none => classPlusThen isDigitCh isSepChap u)
      ((a :: num') ++ [c])
      (fun c0 h0 => by injection h0 with h0; subst h0; exact isRomanCI_not_ws ha)
    simp only [chapterMatch, hpre, hsp]
    rw [hsplit]

/-! ## The claims -/

/-- C1: On the exact five-line sample text, `parse_slpc_sections` returns
exactly two records in order: Section 1 "Short title" and Section 2
"Punishment", both under chapter "I" ("General"), with the quoted
bodies. -/
theorem c1_end_to_end_two_records :
    parse_slpc_sections
        "CHAPTER I General\nSection 1. Short title\nThis Code may be called the Penal Code.\nSection 2. Punishment\nEvery person liable shall be punished." =
      [{ chapter := ChapVal.str "I", chapter_title := "General", Section := 1,
         section_title := "Short title",
         section_desc := "This Code may be called the Penal Code." },
       { chapter := ChapVal.str "I", chapter_title := "General", Section := 2,
         section_title := "Punishment",
         section_desc := "Every person liable shall be punished." }] := by
  decide

/-- C2: Every record emitted by `parse_slpc_sections` has a nonempty
`section_desc` (the `if section_desc:` guard before `sections.append`);
in particular a section heading immediately followed by another heading
yields no record, as the sample computation shows: only Section 2, whose
body is nonempty, is emitted. -/
theorem c2_emitted_records_have_nonempty_body :
    (∀ (text : String) (r : SectionRecord),
      r ∈ parse_slpc_sections text → r.section_desc ≠ "") ∧
    parse_slpc_sections "Section 1. T\nSection 2. U\nBody." =
      [{ chapter := ChapVal.int 0, chapter_title := "Unknown", Section := 2,
         section_title := "U", section_desc := "Body." }] := by
  constructor
  · intro text r hr
    rw [parse_slpc_sections_eq_scanLines] at hr
    exact scanLines_desc_ne_nil _ _ _ _ r hr
  · decide

/-- Witness for C2 at a concrete input: the first record of the sample
text is in the output and has a nonempty body. -/
theorem c2_emitted_records_have_nonempty_body_witness :
    ({ chapter := ChapVal.str "I", chapter_title := "General", Section := 1,
       section_title := "Short title",
       section_desc := "This Code may be called the Penal Code." } : SectionRecord) ∈
      parse_slpc_sections
        "CHAPTER I General\nSection 1. Short title\nThis Code may be called the Penal Code.\nSection 2. Punishment\nEvery person liable shall be punished." ∧
    ({ chapter := ChapVal.str "I", chapter_title := "General", Section := 1,
       section_title := "Short title",
       section_desc := "This Code may be called the Penal Code." } : SectionRecord).section_desc ≠ "" :=
  ⟨by decide,
   c2_emitted_records_have_nonempty_body.1
     "CHAPTER I General\nSection 1. Short title\nThis Code may be called the Penal Code.\nSection 2. Punishment\nEvery person liable shall be punished."
     ({ chapter := ChapVal.str "I", chapter_title := "General", Section := 1,
        section_title := "Short title",
        section_desc := "This Code may be called the Penal Code." })
     (by decide)⟩

/-- C3: For a text in which every section heading line is followed by a
well-formed body (a nonempty, non-heading line before the next heading),
`parse_slpc_sections` emits exactly one record per section heading, in
document order — the emitted (number, title) pairs are exactly the
headings' — and every emitted record has a nonempty body. -/
theorem c3_wellformed_headings_emit_all_sections :
    ∀ text : String, wfText (splitNL text.data) = true →
      ((parse_slpc_sections text).map (fun r => (r.Section, r.section_title)) =
        secHeads (splitNL text.data)) ∧
      ∀ r ∈ parse_slpc_sections text, r.section_desc ≠ "" := by
  intro text hwf
  constructor
  · rw [parse_slpc_sections_eq_scanLines]
    exact (scanLines_secHeads (splitNL text.data)).1 _ _ hwf
  · intro r hr
    rw [parse_slpc_sections_eq_scanLines] at hr
    exact scanLines_desc_ne_nil _ _ _ _ r hr

/-- Witness for C3 at the sample text: the well-formedness hypothesis
holds and the two emitted records correspond to the two headings. -/
theorem c3_wellformed_headings_emit_all_sections_witness :
    wfText (splitNL ("CHAPTER I General\nSection 1. Short title\nThis Code may be called the Penal Code.\nSection 2. Punishment\nEvery person liable shall be punished.").data) = true ∧
    (parse_slpc_sections
        "CHAPTER I General\nSection 1. Short title\nThis Code may be called the Penal Code.\nSection 2. Punishment\nEvery person liable shall be punished.").map
      (fun r => (r.Section, r.section_title)) =
      secHeads (splitNL ("CHAPTER I General\nSection 1. Short title\nThis Code may be called the Penal Code.\nSection 2. Punishment\nEvery person liable shall be punished.").data) :=
  ⟨by decide,
   (c3_wellformed_headings_emit_all_sections
     "CHAPTER I General\nSection 1. Short title\nThis Code may be called the Penal Code.\nSection 2. Punishment\nEvery person liable shall be punished." (by decide)).1⟩

/-- C9: The scan of `parse_slpc_sections` terminates on every input: fuel
equal to the number of lines always suffices for the outer loop (each
iteration advances the index by at least one — the inner loop hands back
an index at least one past the heading line), so the bounded scan
completes (does not return `none`) on every text. -/
theorem c9_scan_terminates (text : String) :
    (parseAux (splitNL text.data) (splitNL text.data).length 0 (ChapVal.int 0)
      "Unknown".data []).isSome = true := by
  rw [parseAux_eq_scanLines (splitNL text.data) (splitNL text.data).length 0
      (ChapVal.int 0) "Unknown".data [] (by omega)]
  rfl

/-- C10: For every input text, a section heading encountered before the
first recognised chapter heading produces a record carrying the scan's
initial chapter context — chapter is the integer `0` (not a numeral
string from the source) and chapter title is `"Unknown"`.  Formalised
positionally: for every decomposition of the text's lines into a
chapter-free prefix `pre` (in particular the prefix before the first
chapter-matching line) and a remainder `post`, the output is the records
of `pre`'s section headings, all carrying chapter `0` / `"Unknown"`,
followed by the scan of `post` from the unchanged initial context with a
possibly still-open section record from `pre` that also captured chapter
`0` / `"Unknown"` — and whatever body that open record accumulates, if
it is ever closed into a record, that record carries chapter `0` and
chapter title `"Unknown"`. -/
theorem c10_default_chapter_context :
    ∀ (text : String) (pre post : List (List Char)),
      splitNL text.data = pre ++ post →
      (∀ l ∈ pre, chapterMatch (pyStrip l) = none) →
      ∃ (A : List SectionRecord) (pnd : Option Pending),
        parse_slpc_sections text =
          A ++ scanLines post (ChapVal.int 0) "Unknown".data pnd ∧
        (∀ r ∈ A, r.chapter = ChapVal.int 0 ∧ r.chapter_title = "Unknown") ∧
        (∀ p, pnd = some p →
          p.p_chapter = ChapVal.int 0 ∧ p.p_chapter_title = "Unknown".data) ∧
        (∀ (p : Pending) (d : List Char) (r : SectionRecord), pnd = some p →
          r ∈ emitPending (some { p with p_desc := d }) →
          r.chapter = ChapVal.int 0 ∧ r.chapter_title = "Unknown") := by
  intro text pre post hsplit hnoc
  obtain ⟨A, pnd2, heq, hA, hp2⟩ :=
    scanLines_chapterless_prefix pre hnoc post (ChapVal.int 0) "Unknown".data none
      (by simp)
  refine ⟨A, pnd2, ?_, ?_, hp2, ?_⟩
  · rw [parse_slpc_sections_eq_scanLines, hsplit, heq]
  · intro r hr
    obtain ⟨h1, h2⟩ := hA r hr
    exact ⟨h1, by rw [h2]⟩
  · intro p d r hp hr
    obtain ⟨h1, h2⟩ := hp2 p hp
    by_cases hd : pyStrip d = []
    · simp [emitPending, hd] at hr
    · simp [emitPending, hd] at hr
      rw [hr]
      exact ⟨h1, by rw [h2]⟩

/-- Witness for C10 at a text whose section heading precedes a later
recognised chapter heading: the first two lines are chapter-free, the
third is the chapter heading `"CHAPTER II Offences"`, and the theorem
applies to this decomposition.  (Here the boundary record is still open:
Section 1's body ends only at the chapter line inside `post`, and the
emitted record indeed carries chapter `0` / `"Unknown"`.) -/
theorem c10_default_chapter_context_witness :
    splitNL ("Section 1. T\nBody.\nCHAPTER II Offences\nSection 2. U\nMore.").data =
      ["Section 1. T".data, "Body.".data] ++
        ["CHAPTER II Offences".data, "Section 2. U".data, "More.".data] ∧
    (∀ l ∈ [("Section 1. T").data, ("Body.").data],
      chapterMatch (pyStrip l) = none) ∧
    ∃ (A : List SectionRecord) (pnd : Option Pending),
      parse_slpc_sections "Section 1. T\nBody.\nCHAPTER II Offences\nSection 2. U\nMore." =
        A ++ scanLines ["CHAPTER II Offences".data, "Section 2. U".data, "More.".data]
          (ChapVal.int 0) "Unknown".data pnd ∧
      (∀ r ∈ A, r.chapter = ChapVal.int 0 ∧ r.chapter_title = "Unknown") ∧
      (∀ p, pnd = some p →
        p.p_chapter = ChapVal.int 0 ∧ p.p_chapter_title = "Unknown".data) ∧
      (∀ (p : Pending) (d : List Char) (r : SectionRecord), pnd = some p →
        r ∈ emitPending (some { p with p_desc := d }) →
        r.chapter = ChapVal.int 0 ∧ r.chapter_title = "Unknown") :=
  ⟨by decide, by decide,
   c10_default_chapter_context "Section 1. T\nBody.\nCHAPTER II Offences\nSection 2. U\nMore."
     ["Section 1. T".data, "Body.".data]
     ["CHAPTER II Offences".data, "Section 2. U".data, "More.".data]
     (by decide) (by decide)⟩

/-- C4: For every record passed to the builder, the constructed document
unit has display text equal to the canonical header
`"Section {n}: {title}"` joined to the body with a blank-line separator,
and its metadata consists of exactly the record's chapter, chapter title,
section number and section title (pointwise over the input list, in
order). -/
theorem c4_prepare_documents_shape :
    ∀ slpc_data : List SectionRecord,
      List.Forall₂
        (fun (entry : SectionRecord) (doc : Document) =>
          doc.page_content =
            ("Section " ++ toString entry.Section ++ ": " ++ entry.section_title) ++
              "\n\n" ++ entry.section_desc ∧
          doc.metadata =
            [("chapter", entry.chapter.toMeta),
             ("chapter_title", MetaVal.mstr entry.chapter_title),
             ("section", MetaVal.mint (entry.Section : Int)),
             ("section_title", MetaVal.mstr entry.section_title)])
        slpc_data (prepare_documents slpc_data) := by
  intro slpc_data
  induction slpc_data with
  | nil => simp [prepare_documents]
  | cons r rs ih =>
    simp only [prepare_documents, List.map_cons] at ih ⊢
    exact List.Forall₂.cons ⟨rfl, rfl⟩ ih

/-- C8: Serialising a record collection to the intermediate JSON corpus
format and deserialising it is lossless: `load_slpc_data` returns exactly
one dictionary per record, in order, carrying exactly the five fields
`chapter, chapter_title, Section, section_title, section_desc` with the
record's values. -/
theorem c8_roundtrip_lossless :
    ∀ data : List SectionRecord,
      load_slpc_data (save_to_json data) = some (data.map recordToJ) := by
  intro data
  simp only [save_to_json, load_slpc_data]
  induction data with
  | nil => simp [jdictList]
  | cons r rs ih => simp [jdictList, ih]

/-- Counterexample to C6: with the index location set but the collection
name unset, `search_slpc_sections` does not fail with a configuration
error — only `PERSIST_DIRECTORY_PATH` is checked; the unset collection
name is read without any check and passed on (as `None`) to the `Chroma`
constructor, i.e. the call proceeds to touch the index. -/
theorem c6_counterexample_query_without_collection_name :
    search_slpc_sections_config
        (fun k => if k = "PERSIST_DIRECTORY_PATH" then some "/vectordb" else none) =
      Except.ok ("/vectordb", none) := by
  rfl

/-- C6 (amended): the build fails fast with a configuration error exactly
when any of its three required variables (corpus path, index location,
collection name) is unset or empty; the query checks — and fails fast
on — only the index location, and never checks the collection name. -/
theorem c6_amended_config_checks :
    ∀ env : String → Option String,
      ((build_slpc_vectordb_config env).isOk = true ↔
        (pytruthy (env "SLPC_JSON_PATH") && pytruthy (env "PERSIST_DIRECTORY_PATH") &&
          pytruthy (env "SLPC_COLLECTION_NAME")) = true) ∧
      ((search_slpc_sections_config env).isOk = true ↔
        pytruthy (env "PERSIST_DIRECTORY_PATH") = true) := by
  intro env
  constructor
  · by_cases h : (pytruthy (env "SLPC_JSON_PATH") && pytruthy (env "PERSIST_DIRECTORY_PATH") &&
        pytruthy (env "SLPC_COLLECTION_NAME")) = true
    · simp [build_slpc_vectordb_config, h, Except.isOk, Except.toBool]
    · rw [Bool.not_eq_true] at h
      simp [build_slpc_vectordb_config, h, Except.isOk, Except.toBool]
  · by_cases h : pytruthy (env "PERSIST_DIRECTORY_PATH") = true
    · simp [search_slpc_sections_config, h, Except.isOk, Except.toBool]
    · rw [Bool.not_eq_true] at h
      simp [search_slpc_sections_config, h, Except.isOk, Except.toBool]

/-- Counterexample to C7: the bare heading line `"CHAPTER XVI"` is matched,
but backtracking against the mandatory nonempty group 2 splits the
numeral — the chapter context becomes `"XV"` with title `"I"`, not
`"XVI"`; and the bare line `"CHAPTER I"` (single-letter numeral) is not
recognised as a chapter heading at all. -/
theorem c7_counterexample_bare_numeral_split :
    parse_slpc_sections "CHAPTER XVI\nSection 4. Theft\nTaking property." =
      [{ chapter := ChapVal.str "XV", chapter_title := "I", Section := 4,
         section_title := "Theft", section_desc := "Taking property." }] ∧
    chapterMatch (pyStrip "CHAPTER I".data) = none := by
  constructor
  · decide
  · decide

/-- C7 (amended): a chapter-label line bearing a roman or arabic numeral
followed by a space and a title (first title character outside `[:\s]`,
no newline) is recognised with the complete numeral as the chapter
identifier; when the title is absent, a multi-letter roman numeral is
still recognised but its last letter is split off as the title, so the
identifier is the numeral without its last character. -/
theorem c7_amended_chapter_heading_recognition :
    (∀ (num : List Char) (t0 : Char) (ts : List Char),
      num ≠ [] → (∀ c ∈ num, isRomanCI c = true) →
      isSepChap t0 = false → (∀ c ∈ t0 :: ts, c ≠ '\n') →
      chapterMatch ("CHAPTER ".data ++ (num ++ ' ' :: t0 :: ts)) =
        some (num, t0 :: ts)) ∧
    (∀ (num : List Char) (t0 : Char) (ts : List Char),
      num ≠ [] → (∀ c ∈ num, isDigitCh c = true) →
      isSepChap t0 = false → (∀ c ∈ t0 :: ts, c ≠ '\n') →
      chapterMatch ("CHAPTER ".data ++ (num ++ ' ' :: t0 :: ts)) =
        some (num, t0 :: ts)) ∧
    (∀ (num : List Char) (c : Char),
      num ≠ [] → (∀ x ∈ num, isRomanCI x = true) → isRomanCI c = true →
      chapterMatch ("CHAPTER ".data ++ (num ++ [c])) = some (num, [c])) := by
  refine ⟨?_, ?_, ?_⟩
  · intro num t0 ts hne hall ht0 hnl
    exact chapterMatch_roman_title num (t0 :: ts) hne hall
      (fun c0 h0 => by injection h0 with h0; subst h0; exact ht0) hnl (by simp)
  · intro num t0 ts hne hall ht0 hnl
    exact chapterMatch_digit_title num (t0 :: ts) hne hall
      (fun c0 h0 => by injection h0 with h0; subst h0; exact ht0) hnl (by simp)
  · intro num c hne hall hc
    exact chapterMatch_roman_bare num c hne hall hc

/-- Witness for the amended C7: `"CHAPTER XVI Offences"` and
`"CHAPTER 16 Offences"` are recognised with identifiers `"XVI"` / `"16"`
and title `"Offences"`; the bare `"CHAPTER XVI"` is recognised with
identifier `"XV"` and title `"I"`. -/
theorem c7_amended_chapter_heading_recognition_witness :
    chapterMatch ("CHAPTER ".data ++ ("XVI".data ++ ' ' :: 'O' :: "ffences".data)) =
      some ("XVI".data, 'O' :: "ffences".data) ∧
    chapterMatch ("CHAPTER ".data ++ ("16".data ++ ' ' :: 'O' :: "ffences".data)) =
      some ("16".data, 'O' :: "ffences".data) ∧
    chapterMatch ("CHAPTER ".data ++ ("XV".data ++ ['I'])) = some ("XV".data, ['I']) :=
  ⟨c7_amended_chapter_heading_recognition.1 "XVI".data 'O' "ffences".data
      (by decide) (by decide) (by decide) (by decide),
   c7_amended_chapter_heading_recognition.2.1 "16".data 'O' "ffences".data
      (by decide) (by decide) (by decide) (by decide),
   c7_amended_chapter_heading_recognition.2.2 "XV".data 'I'
      (by decide) (by decide) (by decide)⟩

/-- Evaluation of C5 at a failing input: building collection `"slpc"` at
`"/vectordb"` from `R1` (Section 1) and then rebuilding the same
collection from `R2` (Section 2) leaves the collection holding the
documents of `R1 ++ R2` — `Chroma.from_documents` adds to an existing
collection rather than replacing it — and a subsequent similarity search
returns the Section 1 document built from `R1`, which is not a record of
`R2`. -/
theorem c5_rebuild_merges_eval :
    (chroma_from_documents
        (chroma_from_documents ChromaStore.empty
          (prepare_documents
            [{ chapter := ChapVal.str "I", chapter_title := "General", Section := 1,
               section_title := "Short title",
               section_desc := "This Code may be called the Penal Code." }])
          "/vectordb" "slpc")
        (prepare_documents
          [{ chapter := ChapVal.str "I", chapter_title := "General", Section := 2,
             section_title := "Punishment",
             section_desc := "Every person liable shall be punished." }])
        "/vectordb" "slpc").getCollection "/vectordb" "slpc" =
      prepare_documents
        [{ chapter := ChapVal.str "I", chapter_title := "General", Section := 1,
           section_title := "Short title",
           section_desc := "This Code may be called the Penal Code." },
         { chapter := ChapVal.str "I", chapter_title := "General", Section := 2,
           section_title := "Punishment",
           section_desc := "Every person liable shall be punished." }] ∧
    (chroma_similarity_search
        (chroma_from_documents
          (chroma_from_documents ChromaStore.empty
            (prepare_documents
              [{ chapter := ChapVal.str "I", chapter_title := "General", Section := 1,
                 section_title := "Short title",
                 section_desc := "This Code may be called the Penal Code." }])
            "/vectordb" "slpc")
          (prepare_documents
            [{ chapter := ChapVal.str "I", chapter_title := "General", Section := 2,
               section_title := "Punishment",
               section_desc := "Every person liable shall be punished." }])
          "/vectordb" "slpc")
        "/vectordb" "slpc" (fun docs => docs) 3).map (fun doc => doc.page_content) =
      ["Section 1: Short title\n\nThis Code may be called the Penal Code.",
       "Section 2: Punishment\n\nEvery person liable shall be punished."] := by
  constructor
  · rfl
  · rfl
